import Mathlib

set_option linter.unusedVariables false

/-!
Verification development for the zapd daemon core (src/zapd/app.py).

The file embeds, shallowly, the data model and operations of the daemon:
the transfer-event callback of the watcher (on_transfer_utx), the SIGINT
handler, and the supervisor main loop.  Side effects (log lines, webhook
POSTs, alert emails, stop requests) are made explicit as event values
returned by the embedded functions.

The helper modules config, utils, rpc and utx are external to the core
source file; the helpers that the claims depend on are modelled from the
specification (each such definition carries a doc comment saying so).
-/

namespace Zapd

/-! ## Log levels (python logging numeric values; trace sits below debug) -/

def logTRACE : Nat := 5

def logDEBUG : Nat := 10

def logINFO : Nat := 20

def logWARNING : Nat := 30

def logERROR : Nat := 40

/-! ## Base58 encoding (model of the base58 library used on line 40 of app.py)

Bytes are represented as natural numbers (taken mod 256).  The encoding is
the standard one: each leading zero byte contributes a literal one
character, and the remaining value is written big-endian in base 58. -/

def b58alphabet : List Char :=
  "123456789ABCDEFGHJKLMNPQRSTUVWXYZabcdefghijkmnopqrstuvwxyz".toList

def b58digitChar (d : Nat) : Char := b58alphabet.getD d '?'

/-- Little-endian base-58 digits of a number; the first argument is fuel
(the number itself suffices, since the value shrinks by a factor of 58
per digit). -/
def natToB58Aux : Nat → Nat → List Char
  | 0, _ => []
  | _ + 1, 0 => []
  | fuel + 1, n + 1 => b58digitChar ((n + 1) % 58) :: natToB58Aux fuel ((n + 1) / 58)

def natToB58 (n : Nat) : List Char := natToB58Aux n n

def bytesToNat (bs : List Nat) : Nat :=
  bs.foldl (fun acc b => acc * 256 + b % 256) 0

def leadingZeroBytes : List Nat → Nat
  | [] => 0
  | b :: rest => if b % 256 = 0 then leadingZeroBytes rest + 1 else 0

def b58encode (bs : List Nat) : String :=
  String.mk (List.replicate (leadingZeroBytes bs) '1' ++ (natToB58 (bytesToNat bs)).reverse)

/-! ## Configuration (config.read_cfg result, read once at startup) -/

structure Config where
  testnet : Bool
  address : String
  signingKey : List Nat
  webhookUrl : String
deriving DecidableEq, Repr

/-! ## Modelled helpers from utils (not under src/) -/

/-- Modelled from the spec: utils.extract_invoice_id is not under src/.
Spec 4.1: decode(attachment) yields an invoice id or absent; the format is
application-specific, e.g. a tagged length-prefixed field; malformed,
empty, or semantically-unrelated content yields absent rather than an
error.  Here a well-formed encoding is a tag byte 1, a length byte, and
exactly that many payload bytes; anything else decodes to none. -/
def extract_invoice_id (attachment : List Nat) : Option (List Nat) :=
  match attachment with
  | tag :: len :: payload =>
      if tag = 1 ∧ payload.length = len then some payload else none
  | _ => none

/-- Bytes of a natural number, little-endian, fixed width, used by the
modelled serialization and the stand-in hash. -/
def natBytes (w : Nat) (n : Nat) : List Nat :=
  (List.range w).map (fun i => n / 256 ^ i % 256)

/-- Deterministic accumulator over bytes; stand-in for the external
cryptographic hash primitives, which live outside this repository. -/
def mixFold (seed : Nat) (bs : List Nat) : Nat :=
  bs.foldl (fun acc b => (acc * 131 + b % 256 + 1) % 2 ^ 64) seed

/-- Modelled from the spec: the chain id byte selected by configuration
(testnet vs mainnet use distinct derivation parameters). -/
def chainIdByte (testnet : Bool) : Nat := if testnet then 84 else 87

/-- Modelled from the spec: the 20-byte public-key hash used in address
derivation; the real secure hash is external cryptography outside this
repository, so a deterministic stand-in of the same shape is used. -/
def pubKeyHash (pk : List Nat) : List Nat :=
  natBytes 8 (mixFold 3 pk) ++ natBytes 8 (mixFold 5 pk) ++ natBytes 4 (mixFold 7 pk)

/-- Modelled from the spec: utils.address_from_public_key is not under
src/.  Spec 4.2: version/network byte + public-key hash + checksum,
base58-encoded; parameters selected by configuration. -/
def address_from_public_key (testnet : Bool) (pubkey : List Nat) : String :=
  let body := 1 :: chainIdByte testnet :: pubKeyHash pubkey
  b58encode (body ++ natBytes 4 (mixFold 11 body))

/-- The payment notification record (spec section 3). -/
structure PaymentNotification where
  txid : String
  timestamp : Nat
  recipientAddress : String
  senderAddress : String
  amount : Nat
  invoiceId : Option (List Nat)
deriving DecidableEq, Repr

/-- Modelled from the spec: the canonical serialization concatenates, in a
fixed field order, txid, timestamp, recipient, sender, amount, and the
invoice id (empty sentinel when absent). -/
def serializeNotification (n : PaymentNotification) : List Nat :=
  n.txid.toList.map Char.toNat ++ natBytes 8 n.timestamp
    ++ n.recipientAddress.toList.map Char.toNat
    ++ n.senderAddress.toList.map Char.toNat
    ++ natBytes 8 n.amount
    ++ (match n.invoiceId with | none => [] | some inv => inv)

/-- Modelled from the spec: detached signature over the canonical message
with the daemon's private key; a deterministic function of key and message
only (the real signature scheme is external cryptography). -/
def signBytes (key msg : List Nat) : List Nat :=
  natBytes 8 (mixFold (mixFold 13 key) msg)

/-- Modelled from the spec: utils.create_signed_payment_notification is
not under src/.  Spec 4.2: builds the canonical notification from the
event fields and signs it with the configured key; returns the message
together with the signature. -/
def create_signed_payment_notification (cfg : Config) (txid : String) (timestamp : Nat)
    (recipient : String) (fromAddr : String) (amount : Nat)
    (invoice_id : Option (List Nat)) : PaymentNotification × List Nat :=
  let msg : PaymentNotification :=
    { txid := txid, timestamp := timestamp, recipientAddress := recipient,
      senderAddress := fromAddr, amount := amount, invoiceId := invoice_id }
  (msg, signBytes cfg.signingKey (serializeNotification msg))

/-! ## Watcher callback (on_transfer_utx, app.py lines 39-47) -/

structure LogEntry where
  level : Nat
  text : String
deriving DecidableEq, Repr

structure WebhookCall where
  msg : PaymentNotification
  sig : List Nat
deriving DecidableEq, Repr

/-- The observable effects of one invocation of the watcher callback. -/
structure WatcherEffects where
  logs : List LogEntry
  webhookCalls : List WebhookCall
deriving DecidableEq, Repr

/-- Embedding of on_transfer_utx (app.py lines 39-47).  The recipient is
base58-encoded, an info line is logged unconditionally, and only when the
encoded recipient equals the configured merchant address is the sender
address derived, the attachment decoded, the notification signed and the
webhook called.  The sig parameter (the transaction's own signature from
the feed) is rebound on line 46 and never read, so the effects do not
depend on it. -/
def on_transfer_utx (cfg : Config) (txid : String) (sig : List Nat) (pubkey : List Nat)
    (asset_id : String) (timestamp : Nat) (amount : Nat) (fee : Nat)
    (recipient : List Nat) (attachment : List Nat) : WatcherEffects :=
  let recipientAddr := b58encode recipient
  let transferLog : LogEntry :=
    { level := logINFO,
      text := "!transfer!: txid " ++ txid ++ ", recipient " ++ recipientAddr
        ++ ", amount " ++ toString amount ++ ", attachment " ++ toString attachment }
  if recipientAddr = cfg.address then
    let fromAddr := address_from_public_key cfg.testnet pubkey
    let invoice_id := extract_invoice_id attachment
    let p := create_signed_payment_notification cfg txid timestamp recipientAddr fromAddr
      amount invoice_id
    { logs := [transferLog], webhookCalls := [{ msg := p.1, sig := p.2 }] }
  else
    { logs := [transferLog], webhookCalls := [] }

/-! ## SIGINT handler (app.py lines 49-52) -/

/-- Daemon-global mutable state visible to the signal handler: the run
flag (module-level keep_running) and the start-email flag of the main
loop. -/
structure DaemonState where
  keepRunning : Bool
  sentStartEmail : Bool
deriving DecidableEq, Repr

/-- Embedding of sigint_handler (app.py lines 49-52): logs a warning and
clears the run flag; no other state is touched. -/
def sigint_handler (st : DaemonState) : DaemonState × List LogEntry :=
  ({ st with keepRunning := false },
   [{ level := logWARNING, text := "SIGINT caught, attempting to exit gracefully" }])

/-! ## Supervisor main loop (app.py lines 66-88) -/

/-- Events observable from the supervisor: log lines, the two alert
emails, and the stop requests issued to the two tasks. -/
inductive SupEv where
  | logEv (level : Nat) (text : String)
  | emailDeath
  | emailAlive
  | stopWutx
  | stopZaprpc
deriving DecidableEq, Repr

/-- One poll iteration's environment: whether the run flag was observed
false at the top of the loop (SIGINT arrived before this iteration), and
the started flags of the greenlets currently in the group (dead greenlets
are discharged from the group, so the list length is the live count). -/
structure Poll where
  sigint : Bool
  groupStarted : List Bool
deriving DecidableEq, Repr

def pollAllStarted (p : Poll) : Bool := p.groupStarted.all (fun b => b)

def deadMsg : String := "one of our greenlets is dead X("

def aliveMsg : String := "our greenlets have started :)"

def deathEvents : List SupEv := [SupEv.logEv logERROR deadMsg, SupEv.emailDeath]

def aliveEvents : List SupEv := [SupEv.logEv logINFO aliveMsg, SupEv.emailAlive]

/-- Events issued after the loop exits (app.py lines 86-88): a log line,
then stop on the watcher, then stop on the RPC service. -/
def stopEvents : List SupEv :=
  [SupEv.logEv logINFO "stopping greenlets", SupEv.stopWutx, SupEv.stopZaprpc]

/-- Embedding of the while loop of app.py lines 67-85, run against a
finite window of poll observations.  Returns the events emitted inside
the loop and whether the loop exited within the window (by SIGINT at the
top-of-loop check, or by the break after the death alert).  State
threaded: sent_start_email. -/
def runLoop : Bool → List Poll → List SupEv × Bool
  | _, [] => ([], false)
  | sent, p :: rest =>
    if p.sigint then ([], true)
    else if p.groupStarted.length < 3 then (deathEvents, true)
    else
      let fire : Bool := !sent && pollAllStarted p
      let r := runLoop (sent || pollAllStarted p) rest
      ((if fire then aliveEvents else []) ++ r.1, r.2)

/-- The supervisor main loop followed by the post-loop stop sequence
(which runs only when the loop exits within the observed window). -/
def supervise (polls : List Poll) : List SupEv :=
  let r := runLoop false polls
  r.1 ++ (if r.2 then stopEvents else [])

/-- The value of sent_start_email after a run of healthy polls. -/
def sentAfter : Bool → List Poll → Bool
  | sent, [] => sent
  | sent, p :: rest => sentAfter (sent || pollAllStarted p) rest

/-! ## Sample configuration used by concrete witnesses -/

/-- A concrete configuration whose merchant address is the base58 encoding
of the byte string consisting of the single byte 1. -/
def cfgA : Config :=
  { testnet := false, address := "2", signingKey := [7], webhookUrl := "hook" }

/-- A poll at which the loop keeps running and no greenlet has died. -/
def healthyb (p : Poll) : Bool := !p.sigint && decide (3 ≤ p.groupStarted.length)

/-- A healthy poll at which every greenlet reports started. -/
def upb (p : Poll) : Bool := healthyb p && pollAllStarted p

/-- A healthy poll at which not every greenlet reports started. -/
def quietb (p : Poll) : Bool := healthyb p && !pollAllStarted p

/-- Sample poll: all three greenlets present and started. -/
def pollAllUp : Poll := { sigint := false, groupStarted := [true, true, true] }

/-- Sample poll: three greenlets present, one not yet started. -/
def pollPartial : Poll := { sigint := false, groupStarted := [true, true, false] }

/-- Sample poll: a greenlet has died (only two remain in the group). -/
def pollDead : Poll := { sigint := false, groupStarted := [true, true] }

/-- Sample poll: the run flag was observed false (SIGINT arrived). -/
def pollSig : Poll := { sigint := true, groupStarted := [true, true, true] }

/-! ## Theorems for the claims about the watcher callback -/

/-- Claim C1: for every TransferEvent whose recipient, decoded to address
form, does not equal the configured merchant address, processing the event
produces no signed payment notification and no webhook call. -/
theorem c1_nonmatching_no_webhook (cfg : Config) (txid : String) (sig pubkey : List Nat)
    (asset_id : String) (timestamp amount fee : Nat) (recipient attachment : List Nat)
    (h : b58encode recipient ≠ cfg.address) :
    (on_transfer_utx cfg txid sig pubkey asset_id timestamp amount fee recipient
      attachment).webhookCalls = [] := by
  simp [on_transfer_utx, h]

theorem c1_witness :
    b58encode [0] ≠ cfgA.address ∧
    (on_transfer_utx cfgA "t1" [] [] "" 0 0 0 [0] []).webhookCalls = [] :=
  ⟨by decide, c1_nonmatching_no_webhook cfgA "t1" [] [] "" 0 0 0 [0] [] (by decide)⟩

/-- Claim C3: attachment decoding is a total function: for every byte
string input, including the empty string, decode returns either a present
invoice id or the absent value, and never raises. -/
theorem c3_decode_total (attachment : List Nat) :
    (extract_invoice_id attachment = none
      ∨ ∃ inv, extract_invoice_id attachment = some inv)
    ∧ extract_invoice_id [] = none := by
  refine ⟨?_, rfl⟩
  cases h : extract_invoice_id attachment with
  | none => exact Or.inl rfl
  | some inv => exact Or.inr ⟨inv, rfl⟩

/-- Claim C4: the signing operation is deterministic: two invocations on
an identical event yield byte-identical canonical messages and signatures,
and the signature is a function of the configured key and the canonical
message only. -/
theorem c4_sign_deterministic (cfg : Config) (txid : String) (timestamp : Nat)
    (recipient fromAddr : String) (amount : Nat) (invoice_id : Option (List Nat)) :
    create_signed_payment_notification cfg txid timestamp recipient fromAddr amount invoice_id
      = create_signed_payment_notification cfg txid timestamp recipient fromAddr amount
          invoice_id
    ∧ (create_signed_payment_notification cfg txid timestamp recipient fromAddr amount
        invoice_id).2
      = signBytes cfg.signingKey
          (serializeNotification
            (create_signed_payment_notification cfg txid timestamp recipient fromAddr amount
              invoice_id).1) :=
  ⟨rfl, rfl⟩

/-- Claim C7: for every matching TransferEvent whose attachment fails to
decode, the notification is still built and dispatched: its invoiceId
field is absent and the webhook is called exactly once for the event. -/
theorem c7_decode_failure_still_notifies (cfg : Config) (txid : String)
    (sig pubkey : List Nat) (asset_id : String) (timestamp amount fee : Nat)
    (recipient attachment : List Nat)
    (hmatch : b58encode recipient = cfg.address)
    (hdec : extract_invoice_id attachment = none) :
    (on_transfer_utx cfg txid sig pubkey asset_id timestamp amount fee recipient
      attachment).webhookCalls.length = 1
    ∧ ∀ c ∈ (on_transfer_utx cfg txid sig pubkey asset_id timestamp amount fee recipient
        attachment).webhookCalls, c.msg.invoiceId = none := by
  simp [on_transfer_utx, hmatch, hdec, create_signed_payment_notification]

theorem c7_witness :
    b58encode [1] = cfgA.address
    ∧ extract_invoice_id [] = none
    ∧ ((on_transfer_utx cfgA "t1" [] [] "" 0 0 0 [1] []).webhookCalls.length = 1
       ∧ ∀ c ∈ (on_transfer_utx cfgA "t1" [] [] "" 0 0 0 [1] []).webhookCalls,
           c.msg.invoiceId = none) :=
  ⟨by decide, rfl, c7_decode_failure_still_notifies cfgA "t1" [] [] "" 0 0 0 [1] [] (by decide) rfl⟩

/-- Claim C8, counterexample: a TransferEvent whose recipient does not
match the merchant address still produces a log entry above trace level
(the unconditional info line on line 41 of app.py), contradicting the
claim that such events leave no log output above trace level. -/
theorem c8_counterexample :
    b58encode [0] ≠ cfgA.address
    ∧ ((on_transfer_utx cfgA "t1" [] [] "" 0 0 0 [0] []).logs.all
        (fun e => decide (e.level ≤ logTRACE))) = false := by
  decide

/-- Claim C8, amended: for every TransferEvent whose recipient does not
equal the configured merchant address, handling the event produces no
webhook call and no signed notification; its only side effect is a single
info-level log line recording the transfer. -/
theorem c8_amended_nonmatching_frame (cfg : Config) (txid : String) (sig pubkey : List Nat)
    (asset_id : String) (timestamp amount fee : Nat) (recipient attachment : List Nat)
    (h : b58encode recipient ≠ cfg.address) :
    (on_transfer_utx cfg txid sig pubkey asset_id timestamp amount fee recipient
      attachment).webhookCalls = []
    ∧ (on_transfer_utx cfg txid sig pubkey asset_id timestamp amount fee recipient
        attachment).logs.length = 1
    ∧ ((on_transfer_utx cfg txid sig pubkey asset_id timestamp amount fee recipient
        attachment).logs.all (fun e => e.level == logINFO)) = true := by
  simp [on_transfer_utx, h]

theorem c8_amended_witness :
    b58encode [0] ≠ cfgA.address
    ∧ ((on_transfer_utx cfgA "t1" [] [] "" 0 0 0 [0] []).webhookCalls = []
       ∧ (on_transfer_utx cfgA "t1" [] [] "" 0 0 0 [0] []).logs.length = 1
       ∧ ((on_transfer_utx cfgA "t1" [] [] "" 0 0 0 [0] []).logs.all
           (fun e => e.level == logINFO)) = true) :=
  ⟨by decide, c8_amended_nonmatching_frame cfgA "t1" [] [] "" 0 0 0 [0] [] (by decide)⟩

/-- Claim C10: the transaction's own signature received from the feed is
discarded: the effects of the callback do not depend on it, and every
webhook dispatch carries the notification signature computed from the
canonical message, never the on-chain transaction signature. -/
theorem c10_tx_signature_discarded (cfg : Config) (txid : String)
    (sig1 sig2 pubkey : List Nat) (asset_id : String) (timestamp amount fee : Nat)
    (recipient attachment : List Nat) :
    on_transfer_utx cfg txid sig1 pubkey asset_id timestamp amount fee recipient attachment
      = on_transfer_utx cfg txid sig2 pubkey asset_id timestamp amount fee recipient
          attachment
    ∧ ((on_transfer_utx cfg txid sig1 pubkey asset_id timestamp amount fee recipient
        attachment).webhookCalls.all
          (fun c => c.sig == signBytes cfg.signingKey (serializeNotification c.msg)))
        = true := by
  refine ⟨rfl, ?_⟩
  simp only [on_transfer_utx, create_signed_payment_notification]
  split
  · simp
  · simp

/-! ## Supervisor lemmas -/

lemma healthyb_spec (p : Poll) (h : healthyb p = true) :
    p.sigint = false ∧ 3 ≤ p.groupStarted.length := by
  simp [healthyb] at h
  exact h

lemma upb_spec (p : Poll) (h : upb p = true) :
    healthyb p = true ∧ pollAllStarted p = true := by
  simp [upb] at h
  exact h

lemma quietb_spec (p : Poll) (h : quietb p = true) :
    healthyb p = true ∧ pollAllStarted p = false := by
  simp [quietb] at h
  exact h

lemma sentAfter_true (polls : List Poll) : sentAfter true polls = true := by
  induction polls with
  | nil => rfl
  | cons p rest ih => simpa [sentAfter] using ih

lemma sentAfter_quiet (polls : List Poll) (sent : Bool)
    (h : ∀ p ∈ polls, pollAllStarted p = false) : sentAfter sent polls = sent := by
  induction polls generalizing sent with
  | nil => rfl
  | cons p rest ih =>
    have hp := h p (List.mem_cons_self p rest)
    have hrest : ∀ q ∈ rest, pollAllStarted q = false :=
      fun q hq => h q (List.mem_cons_of_mem p hq)
    simp [sentAfter, hp, ih sent hrest]

/-- Splitting a run of the loop at a healthy prefix: no exit happens inside
the prefix, so the run continues into the tail with the updated
sent_start_email flag. -/
lemma runLoop_append_healthy (pre tl : List Poll) (sent : Bool)
    (h : ∀ p ∈ pre, p.sigint = false ∧ 3 ≤ p.groupStarted.length) :
    runLoop sent (pre ++ tl)
      = ((runLoop sent pre).1 ++ (runLoop (sentAfter sent pre) tl).1,
         (runLoop (sentAfter sent pre) tl).2) := by
  induction pre generalizing sent with
  | nil => simp [runLoop, sentAfter]
  | cons p pre ih =>
    have hp := h p (List.mem_cons_self p pre)
    have hrest : ∀ q ∈ pre, q.sigint = false ∧ 3 ≤ q.groupStarted.length :=
      fun q hq => h q (List.mem_cons_of_mem p hq)
    have hlt : ¬ p.groupStarted.length < 3 := Nat.not_lt.mpr hp.2
    simp [runLoop, hp.1, hlt, sentAfter, ih (sent || pollAllStarted p) hrest,
      List.append_assoc]

/-- A healthy run of the loop emits the alive alert exactly when the flag
transitions, and never exits within the window. -/
lemma runLoop_healthy_eq (polls : List Poll) (sent : Bool)
    (h : ∀ p ∈ polls, p.sigint = false ∧ 3 ≤ p.groupStarted.length) :
    runLoop sent polls
      = ((if (!sent && sentAfter sent polls) = true then aliveEvents else []), false) := by
  induction polls generalizing sent with
  | nil => cases sent <;> simp [runLoop, sentAfter]
  | cons p rest ih =>
    have hp := h p (List.mem_cons_self p rest)
    have hrest : ∀ q ∈ rest, q.sigint = false ∧ 3 ≤ q.groupStarted.length :=
      fun q hq => h q (List.mem_cons_of_mem p hq)
    have hlt : ¬ p.groupStarted.length < 3 := Nat.not_lt.mpr hp.2
    cases hs : sent with
    | true =>
      simp [runLoop, hp.1, hlt, sentAfter, ih _ hrest, sentAfter_true]
    | false =>
      cases ha : pollAllStarted p with
      | true =>
        simp [runLoop, hp.1, hlt, ha, sentAfter, ih _ hrest, sentAfter_true]
      | false =>
        simp [runLoop, hp.1, hlt, ha, sentAfter, ih _ hrest]

lemma runLoop_healthy_frame (pre : List Poll) (sent : Bool)
    (h : ∀ p ∈ pre, p.sigint = false ∧ 3 ≤ p.groupStarted.length) :
    List.count SupEv.emailDeath (runLoop sent pre).1 = 0
    ∧ (runLoop sent pre).2 = false
    ∧ SupEv.stopWutx ∉ (runLoop sent pre).1
    ∧ SupEv.stopZaprpc ∉ (runLoop sent pre).1 := by
  rw [runLoop_healthy_eq pre sent h]
  refine ⟨?_, rfl, ?_, ?_⟩ <;> (split <;> decide)

lemma alive_notin_runLoop_true (polls : List Poll) :
    SupEv.emailAlive ∉ (runLoop true polls).1 := by
  induction polls with
  | nil => simp [runLoop]
  | cons p rest ih =>
    by_cases h1 : p.sigint = true
    · simp [runLoop, h1]
    · by_cases h2 : p.groupStarted.length < 3
      · simp [runLoop, h1, h2, deathEvents]
      · simp [runLoop, h1, h2, ih]

lemma runLoop_alive_count_le_one (polls : List Poll) :
    ∀ sent, List.count SupEv.emailAlive (runLoop sent polls).1 ≤ 1 := by
  induction polls with
  | nil => intro sent; simp [runLoop]
  | cons p rest ih =>
    intro sent
    by_cases h1 : p.sigint = true
    · simp [runLoop, h1]
    · by_cases h2 : p.groupStarted.length < 3
      · simp [runLoop, h1, h2]
        decide
      · by_cases h3 : (!sent && pollAllStarted p) = true
        · have ha : pollAllStarted p = true := by
            have h4 := h3
            rw [Bool.and_eq_true] at h4
            exact h4.2
          have hsent : (sent || pollAllStarted p) = true := by simp [ha]
          have hcount0 : List.count SupEv.emailAlive (runLoop true rest).1 = 0 :=
            List.count_eq_zero.mpr (alive_notin_runLoop_true rest)
          simp [runLoop, h1, h2, h3, hsent, List.count_append, hcount0]
          decide
        · simp [runLoop, h1, h2, h3, List.count_append]
          exact ih (sent || pollAllStarted p)

lemma alive_count_supervise_le_one (qs : List Poll) :
    List.count SupEv.emailAlive (supervise qs) ≤ 1 := by
  have h1 := runLoop_alive_count_le_one qs false
  have h2 : List.count SupEv.emailAlive
      (if (runLoop false qs).2 then stopEvents else []) = 0 := by
    split <;> decide
  simp only [supervise, List.count_append]
  omega

/-! ## Theorems for the claims about the supervisor and shutdown -/

/-- Claim C2: if at a supervisor poll the number of live greenlets has
fallen below three, the supervisor emits exactly one fatal worker-died
alert, exits the loop before any further poll iteration (the events are
independent of the remaining window), and then requests stop on both
remaining tasks. -/
theorem c2_worker_death_shutdown (pre : List Poll) (small : Poll) (rest : List Poll)
    (hpre : pre.all healthyb = true)
    (hsig : small.sigint = false) (hlen : small.groupStarted.length < 3) :
    supervise (pre ++ small :: rest)
      = (runLoop false pre).1 ++ deathEvents ++ stopEvents
    ∧ List.count SupEv.emailDeath (supervise (pre ++ small :: rest)) = 1
    ∧ SupEv.stopWutx ∈ supervise (pre ++ small :: rest)
    ∧ SupEv.stopZaprpc ∈ supervise (pre ++ small :: rest) := by
  have hpre' : ∀ p ∈ pre, p.sigint = false ∧ 3 ≤ p.groupStarted.length :=
    fun p hp => healthyb_spec p (List.all_eq_true.mp hpre p hp)
  have happ := runLoop_append_healthy pre (small :: rest) false hpre'
  have hden : runLoop (sentAfter false pre) (small :: rest) = (deathEvents, true) := by
    simp [runLoop, hsig, hlen]
  have heq : supervise (pre ++ small :: rest)
      = (runLoop false pre).1 ++ deathEvents ++ stopEvents := by
    simp [supervise, happ, hden, List.append_assoc]
  have hframe := runLoop_healthy_frame pre false hpre'
  refine ⟨heq, ?_, ?_, ?_⟩
  · rw [heq, List.count_append, List.count_append, hframe.1]
    decide
  · rw [heq]
    exact List.mem_append_right _ (by decide)
  · rw [heq]
    exact List.mem_append_right _ (by decide)

theorem c2_witness :
    ([] : List Poll).all healthyb = true
    ∧ pollDead.sigint = false
    ∧ pollDead.groupStarted.length < 3
    ∧ (supervise ([] ++ pollDead :: [])
        = (runLoop false []).1 ++ deathEvents ++ stopEvents
       ∧ List.count SupEv.emailDeath (supervise ([] ++ pollDead :: [])) = 1
       ∧ SupEv.stopWutx ∈ supervise ([] ++ pollDead :: [])
       ∧ SupEv.stopZaprpc ∈ supervise ([] ++ pollDead :: [])) :=
  ⟨rfl, rfl, by decide, c2_worker_death_shutdown [] pollDead [] rfl rfl (by decide)⟩

/-- Claim C5: on a nonempty run of healthy polls where every greenlet
reports started, the daemon-healthy alert is emitted exactly once; and on
every run whatsoever it is emitted at most once, guarded by the
sent_start_email flag. -/
theorem c5_healthy_alert_once (polls : List Poll) (hne : polls ≠ [])
    (h : polls.all upb = true) :
    List.count SupEv.emailAlive (supervise polls) = 1
    ∧ ∀ qs : List Poll, List.count SupEv.emailAlive (supervise qs) ≤ 1 := by
  have h' : ∀ p ∈ polls, upb p = true := List.all_eq_true.mp h
  have hh : ∀ p ∈ polls, p.sigint = false ∧ 3 ≤ p.groupStarted.length :=
    fun p hp => healthyb_spec p (upb_spec p (h' p hp)).1
  refine ⟨?_, alive_count_supervise_le_one⟩
  obtain ⟨p, rest, rfl⟩ := List.exists_cons_of_ne_nil hne
  have hpstart : pollAllStarted p = true :=
    (upb_spec p (h' p (List.mem_cons_self p rest))).2
  have hs : sentAfter false (p :: rest) = true := by
    simp [sentAfter, hpstart, sentAfter_true]
  rw [supervise, runLoop_healthy_eq (p :: rest) false hh, hs]
  decide

theorem c5_witness :
    [pollAllUp] ≠ []
    ∧ [pollAllUp].all upb = true
    ∧ List.count SupEv.emailAlive (supervise [pollAllUp]) = 1
    ∧ List.count SupEv.emailAlive (supervise [pollSig]) ≤ 1 :=
  ⟨by decide, by decide,
   (c5_healthy_alert_once [pollAllUp] (by decide) (by decide)).1,
   (c5_healthy_alert_once [pollAllUp] (by decide) (by decide)).2 [pollSig]⟩

/-- Claim C6: the SIGINT handler clears the run flag and changes nothing
else in the daemon state; a loop that observes the cleared flag at the top
of an iteration exits there (independently of the rest of the window) and
the supervisor then requests stop on the watcher and on the RPC service. -/
theorem c6_sigint_graceful_shutdown (st : DaemonState) (pre : List Poll) (sp : Poll)
    (rest : List Poll)
    (hpre : pre.all healthyb = true)
    (hsig : sp.sigint = true) :
    (sigint_handler st).1.keepRunning = false
    ∧ (sigint_handler st).1.sentStartEmail = st.sentStartEmail
    ∧ supervise (pre ++ sp :: rest) = (runLoop false pre).1 ++ stopEvents
    ∧ SupEv.stopWutx ∈ supervise (pre ++ sp :: rest)
    ∧ SupEv.stopZaprpc ∈ supervise (pre ++ sp :: rest) := by
  have hpre' : ∀ p ∈ pre, p.sigint = false ∧ 3 ≤ p.groupStarted.length :=
    fun p hp => healthyb_spec p (List.all_eq_true.mp hpre p hp)
  have happ := runLoop_append_healthy pre (sp :: rest) false hpre'
  have hexit : runLoop (sentAfter false pre) (sp :: rest) = ([], true) := by
    simp [runLoop, hsig]
  have heq : supervise (pre ++ sp :: rest) = (runLoop false pre).1 ++ stopEvents := by
    simp [supervise, happ, hexit]
  refine ⟨rfl, rfl, heq, ?_, ?_⟩
  · rw [heq]
    exact List.mem_append_right _ (by decide)
  · rw [heq]
    exact List.mem_append_right _ (by decide)

theorem c6_witness :
    ([] : List Poll).all healthyb = true
    ∧ pollSig.sigint = true
    ∧ ((sigint_handler { keepRunning := true, sentStartEmail := false }).1.keepRunning = false
       ∧ (sigint_handler { keepRunning := true, sentStartEmail := false }).1.sentStartEmail
          = ({ keepRunning := true, sentStartEmail := false } : DaemonState).sentStartEmail
       ∧ supervise ([] ++ pollSig :: []) = (runLoop false []).1 ++ stopEvents
       ∧ SupEv.stopWutx ∈ supervise ([] ++ pollSig :: [])
       ∧ SupEv.stopZaprpc ∈ supervise ([] ++ pollSig :: [])) :=
  ⟨rfl, rfl,
   c6_sigint_graceful_shutdown { keepRunning := true, sentStartEmail := false } [] pollSig []
     rfl rfl⟩

/-- Claim C9: the death check runs before the start-confirmation check in
every poll iteration: if the greenlet count drops below three while the
healthy alert has not yet become due (no earlier poll had all greenlets
started), the healthy alert is never emitted — only the death alert
followed by shutdown. -/
theorem c9_death_preempts_healthy_alert (pre : List Poll) (small : Poll) (rest : List Poll)
    (hpre : pre.all quietb = true)
    (hsig : small.sigint = false) (hlen : small.groupStarted.length < 3) :
    SupEv.emailAlive ∉ supervise (pre ++ small :: rest)
    ∧ SupEv.emailDeath ∈ supervise (pre ++ small :: rest) := by
  have hq : ∀ p ∈ pre, quietb p = true := List.all_eq_true.mp hpre
  have hpre' : ∀ p ∈ pre, p.sigint = false ∧ 3 ≤ p.groupStarted.length :=
    fun p hp => healthyb_spec p (quietb_spec p (hq p hp)).1
  have hns : ∀ p ∈ pre, pollAllStarted p = false :=
    fun p hp => (quietb_spec p (hq p hp)).2
  have happ := runLoop_append_healthy pre (small :: rest) false hpre'
  have hden : runLoop (sentAfter false pre) (small :: rest) = (deathEvents, true) := by
    simp [runLoop, hsig, hlen]
  have hquiet : (runLoop false pre).1 = [] := by
    rw [runLoop_healthy_eq pre false hpre', sentAfter_quiet pre false hns]
    simp
  have heq : supervise (pre ++ small :: rest) = deathEvents ++ stopEvents := by
    simp [supervise, happ, hden, hquiet]
  rw [heq]
  exact ⟨by decide, by decide⟩

theorem c9_witness :
    [pollPartial].all quietb = true
    ∧ pollDead.sigint = false
    ∧ pollDead.groupStarted.length < 3
    ∧ (SupEv.emailAlive ∉ supervise ([pollPartial] ++ pollDead :: [])
       ∧ SupEv.emailDeath ∈ supervise ([pollPartial] ++ pollDead :: [])) :=
  ⟨by decide, rfl, by decide,
   c9_death_preempts_healthy_alert [pollPartial] pollDead [] (by decide) rfl (by decide)⟩

end Zapd
